import Mathlib

/-!
Shallow embedding of `instrument-classification/generate_audio_samples.py`
and proofs about its core pipeline: the audio index builder
(`make_audio_index`), the parameter sampler (`random_params`), the slicer
(`split_audio_to_parts`) and the dataset reader (`SingleToneDataset`).

Python floats are modelled as exact rationals (`ℚ`), Python ints as `ℤ`
(or `ℕ` for counts), pandas tables as lists of rows, and numpy's global
pseudo-random generator as an explicit deterministic state machine that is
threaded through the sampler.
-/

namespace AudioSamples

/-- Python `int()` applied to a number: truncation toward zero. -/
def pyInt (q : ℚ) : ℤ := if 0 ≤ q then ⌊q⌋ else -⌊-q⌋

/-- One row of the audio index produced by `make_audio_index`:
columns `start_samples`, `start_time`, `end_samples`, `end_time`. -/
structure AudioIndexEntry where
  start_samples : ℤ
  start_time : ℚ
  end_samples : ℤ
  end_time : ℚ
deriving DecidableEq, Repr, Inhabited

/-- Embedding of `make_audio_index(note_params_df, part_duration,
margin_duration, sample_rate)`.  The Python function only uses
`len(note_params_df)`, so the table argument is replaced by its row count
`sample_count`.  `index = np.arange(sample_count)`;
`part_samples = int(part_duration * sample_rate)`;
`margin_samples = int(margin_duration * sample_rate)`;
row `i` gets `start_samples = i * part_samples + margin_samples`,
`start_time = start_samples / sample_rate`,
`end_samples = (i + 1) * part_samples - margin_samples`,
`end_time = end_samples / sample_rate`. -/
def make_audio_index (sample_count : ℕ) (part_duration margin_duration : ℚ)
    (sample_rate : ℤ) : List AudioIndexEntry :=
  let part_samples := pyInt (part_duration * sample_rate)
  let margin_samples := pyInt (margin_duration * sample_rate)
  (List.range sample_count).map fun (i : ℕ) =>
    { start_samples := (i : ℤ) * part_samples + margin_samples
      start_time := (((i : ℤ) * part_samples + margin_samples : ℤ) : ℚ) / (sample_rate : ℚ)
      end_samples := ((i : ℤ) + 1) * part_samples - margin_samples
      end_time := ((((i : ℤ) + 1) * part_samples - margin_samples : ℤ) : ℚ) / (sample_rate : ℚ) }

lemma pyInt_of_nonneg {q : ℚ} (h : 0 ≤ q) : pyInt q = ⌊q⌋ := if_pos h

lemma pyInt_nonneg {q : ℚ} (h : 0 ≤ q) : 0 ≤ pyInt q := by
  rw [pyInt_of_nonneg h]; exact Int.floor_nonneg.mpr h

lemma make_audio_index_length (n : ℕ) (pd md : ℚ) (sr : ℤ) :
    (make_audio_index n pd md sr).length = n := by
  simp only [make_audio_index, List.length_map, List.length_range]

lemma make_audio_index_getElem! (n : ℕ) (pd md : ℚ) (sr : ℤ) {i : ℕ} (h : i < n) :
    (make_audio_index n pd md sr)[i]! =
      { start_samples := (i : ℤ) * pyInt (pd * sr) + pyInt (md * sr)
        start_time := (((i : ℤ) * pyInt (pd * sr) + pyInt (md * sr) : ℤ) : ℚ) / (sr : ℚ)
        end_samples := ((i : ℤ) + 1) * pyInt (pd * sr) - pyInt (md * sr)
        end_time := ((((i : ℤ) + 1) * pyInt (pd * sr) - pyInt (md * sr) : ℤ) : ℚ) / (sr : ℚ) } := by
  have hlen : i < (make_audio_index n pd md sr).length := by
    rw [make_audio_index_length]; exact h
  rw [getElem!_pos (make_audio_index n pd md sr) i hlen]
  simp [make_audio_index, h]

lemma pd_mul_sr_nonneg {pd : ℚ} {sr : ℤ} (hpd : 0 ≤ pd) (hsr : 0 < sr) :
    0 ≤ pd * (sr : ℚ) :=
  mul_nonneg hpd (by exact_mod_cast hsr.le)

/-- C1 counterexample: the claimed floor formula quantifies over every
`part_duration`, but for a negative one Python's `int()` truncates toward
zero while `⌊⌋` rounds down.  At `n = 2`, `part_duration = -1/2`,
`margin_duration = 0`, `sample_rate = 1` (so `sample_rate > 0` holds) the
code's entry 1 has `start_samples = 0`, while the claimed formula
`i*⌊part_duration*sample_rate⌋ + ⌊margin_duration*sample_rate⌋` gives
`-1` at `i = 1`. -/
theorem C1_counterexample :
    ((0:ℤ) < 1) ∧
    (make_audio_index 2 (-(1/2)) 0 1).map AudioIndexEntry.start_samples = [0, 0] ∧
    (1 : ℤ) * ⌊(-(1/2) : ℚ) * ((1:ℤ) : ℚ)⌋ + ⌊(0 : ℚ) * ((1:ℤ) : ℚ)⌋ = -1 ∧
    ((0 : ℤ) ≠ -1) := by
  refine ⟨by norm_num, ?_, by norm_num, by norm_num⟩
  simp [make_audio_index, List.range_succ]
  norm_num [pyInt]

/-- C1 (amended): for every `n ≥ 0`, nonnegative `part_duration` and
`margin_duration` and positive `sample_rate`, `make_audio_index` returns
`n` entries where
entry `i` has `start_samples = i*part_samples + margin_samples` and
`end_samples = (i+1)*part_samples - margin_samples` with
`part_samples = ⌊part_duration*sample_rate⌋` and
`margin_samples = ⌊margin_duration*sample_rate⌋`; in particular for
`n = 3`, `part_duration = 3.0`, `margin_duration = 0.5`,
`sample_rate = 44100` the start columns are `[22050, 154350, 286650]` and
the end columns `[110250, 242550, 374850]`. -/
theorem C1_make_audio_index_formula (n : ℕ) (pd md : ℚ) (sr : ℤ)
    (hpd : 0 ≤ pd) (hmd : 0 ≤ md) (hsr : 0 < sr) :
    ((make_audio_index n pd md sr).length = n ∧
      ∀ i, i < n →
        (make_audio_index n pd md sr)[i]!.start_samples
            = (i : ℤ) * ⌊pd * (sr : ℚ)⌋ + ⌊md * (sr : ℚ)⌋ ∧
        (make_audio_index n pd md sr)[i]!.end_samples
            = ((i : ℤ) + 1) * ⌊pd * (sr : ℚ)⌋ - ⌊md * (sr : ℚ)⌋) ∧
    ((make_audio_index 3 3 (1/2) 44100).map AudioIndexEntry.start_samples
        = [22050, 154350, 286650] ∧
      (make_audio_index 3 3 (1/2) 44100).map AudioIndexEntry.end_samples
        = [110250, 242550, 374850]) := by
  refine ⟨⟨make_audio_index_length n pd md sr, ?_⟩, ?_, ?_⟩
  · intro i hi
    rw [make_audio_index_getElem! n pd md sr hi]
    rw [pyInt_of_nonneg (pd_mul_sr_nonneg hpd hsr),
      pyInt_of_nonneg (pd_mul_sr_nonneg hmd hsr)]
    exact ⟨rfl, rfl⟩
  · simp [make_audio_index, List.range_succ]
    norm_num [pyInt]
  · simp [make_audio_index, List.range_succ]
    norm_num [pyInt]

/-- Witness for C1 at `n = 3`, `part_duration = 3`, `margin_duration = 1/2`,
`sample_rate = 44100`. -/
theorem C1_witness :
    (((0:ℚ) ≤ 3) ∧ ((0:ℚ) ≤ 1/2) ∧ ((0:ℤ) < 44100)) ∧
    (((make_audio_index 3 3 (1/2) 44100).length = 3 ∧
      ∀ i : ℕ, i < 3 →
        (make_audio_index 3 3 (1/2) 44100)[i]!.start_samples
            = (i : ℤ) * ⌊(3:ℚ) * ((44100:ℤ) : ℚ)⌋ + ⌊(1/2:ℚ) * ((44100:ℤ) : ℚ)⌋ ∧
        (make_audio_index 3 3 (1/2) 44100)[i]!.end_samples
            = ((i : ℤ) + 1) * ⌊(3:ℚ) * ((44100:ℤ) : ℚ)⌋ - ⌊(1/2:ℚ) * ((44100:ℤ) : ℚ)⌋) ∧
    ((make_audio_index 3 3 (1/2) 44100).map AudioIndexEntry.start_samples
        = [22050, 154350, 286650] ∧
      (make_audio_index 3 3 (1/2) 44100).map AudioIndexEntry.end_samples
        = [110250, 242550, 374850])) :=
  ⟨⟨by norm_num, by norm_num, by norm_num⟩,
    C1_make_audio_index_formula 3 3 (1/2) 44100 (by norm_num) (by norm_num) (by norm_num)⟩

/-- C2 counterexample: at `n = 2`, `part_duration = 1/2`,
`margin_duration = 1/5`, `sample_rate = 1` the stated precondition
`part_duration > 2*margin_duration > 0`, `sample_rate > 0` holds, yet both
entries have `start_samples = 0`, so the `start_samples` column is not
strictly increasing: integer truncation of `part_duration*sample_rate`
collapses the layout. -/
theorem C2_counterexample :
    ((2:ℚ) * (1/5) < 1/2 ∧ (0:ℚ) < 1/5 ∧ (0:ℤ) < 1) ∧
    (make_audio_index 2 (1/2) (1/5) 1).map AudioIndexEntry.start_samples = [0, 0] ∧
    ¬ List.Chain' (· < ·)
      ((make_audio_index 2 (1/2) (1/5) 1).map AudioIndexEntry.start_samples) := by
  have heq : (make_audio_index 2 (1/2) (1/5) 1).map AudioIndexEntry.start_samples = [0, 0] := by
    simp [make_audio_index, List.range_succ]
    norm_num [pyInt]
  refine ⟨by norm_num, heq, ?_⟩
  rw [heq]
  simp [List.chain'_cons]

/-- C2 (amended): for every `n ≥ 2`, `part_duration > 2*margin_duration > 0`
and `sample_rate > 0` such that additionally the truncated sample counts
satisfy `part_samples > 2*margin_samples`, the audio index entries are
strictly increasing in `start_samples` and in `end_samples`, pairwise
non-overlapping between slots, and every interval has length exactly
`part_samples - 2*margin_samples`, which is positive. -/
theorem C2_audio_index_layout (n : ℕ) (pd md : ℚ) (sr : ℤ)
    (hn : 2 ≤ n) (hpm : 2 * md < pd) (hmd : 0 < md) (hsr : 0 < sr)
    (hs : 2 * pyInt (md * sr) < pyInt (pd * sr)) :
    (∀ i : ℕ, i + 1 < n →
      (make_audio_index n pd md sr)[i]!.start_samples
          < (make_audio_index n pd md sr)[i+1]!.start_samples ∧
      (make_audio_index n pd md sr)[i]!.end_samples
          < (make_audio_index n pd md sr)[i+1]!.end_samples) ∧
    (∀ i j : ℕ, i < j → j < n →
      (make_audio_index n pd md sr)[i]!.end_samples
          ≤ (make_audio_index n pd md sr)[j]!.start_samples) ∧
    (∀ i : ℕ, i < n →
      (make_audio_index n pd md sr)[i]!.end_samples
          - (make_audio_index n pd md sr)[i]!.start_samples
        = pyInt (pd * sr) - 2 * pyInt (md * sr)) ∧
    0 < pyInt (pd * sr) - 2 * pyInt (md * sr) := by
  have hms : 0 ≤ pyInt (md * sr) := pyInt_nonneg (pd_mul_sr_nonneg hmd.le hsr)
  have hps : 0 < pyInt (pd * sr) := by linarith
  refine ⟨?_, ?_, ?_, by linarith⟩
  · intro i hi
    rw [make_audio_index_getElem! n pd md sr (by omega : i < n),
      make_audio_index_getElem! n pd md sr hi]
    constructor <;> · simp only [Nat.cast_add, Nat.cast_one]; nlinarith
  · intro i j hij hj
    rw [make_audio_index_getElem! n pd md sr (by omega : i < n),
      make_audio_index_getElem! n pd md sr hj]
    simp only
    have hij' : (i : ℤ) + 1 ≤ (j : ℤ) := by exact_mod_cast hij
    nlinarith
  · intro i hi
    rw [make_audio_index_getElem! n pd md sr hi]
    ring

/-- Witness for the amended C2 at `n = 2`, `part_duration = 3`,
`margin_duration = 1/2`, `sample_rate = 44100`. -/
theorem C2_witness :
    (2 ≤ 2 ∧ (2:ℚ) * (1/2) < 3 ∧ (0:ℚ) < 1/2 ∧ (0:ℤ) < 44100 ∧
      2 * pyInt ((1/2 : ℚ) * ((44100:ℤ) : ℚ)) < pyInt ((3 : ℚ) * ((44100:ℤ) : ℚ))) ∧
    ((∀ i : ℕ, i + 1 < 2 →
      (make_audio_index 2 3 (1/2) 44100)[i]!.start_samples
          < (make_audio_index 2 3 (1/2) 44100)[i+1]!.start_samples ∧
      (make_audio_index 2 3 (1/2) 44100)[i]!.end_samples
          < (make_audio_index 2 3 (1/2) 44100)[i+1]!.end_samples) ∧
    (∀ i j : ℕ, i < j → j < 2 →
      (make_audio_index 2 3 (1/2) 44100)[i]!.end_samples
          ≤ (make_audio_index 2 3 (1/2) 44100)[j]!.start_samples) ∧
    (∀ i : ℕ, i < 2 →
      (make_audio_index 2 3 (1/2) 44100)[i]!.end_samples
          - (make_audio_index 2 3 (1/2) 44100)[i]!.start_samples
        = pyInt ((3 : ℚ) * ((44100:ℤ) : ℚ)) - 2 * pyInt ((1/2 : ℚ) * ((44100:ℤ) : ℚ))) ∧
    0 < pyInt ((3 : ℚ) * ((44100:ℤ) : ℚ)) - 2 * pyInt ((1/2 : ℚ) * ((44100:ℤ) : ℚ))) :=
  ⟨⟨le_refl 2, by norm_num, by norm_num, by norm_num, by norm_num [pyInt]⟩,
    C2_audio_index_layout 2 3 (1/2) 44100 (le_refl 2) (by norm_num) (by norm_num)
      (by norm_num) (by norm_num [pyInt])⟩

/-- C3: `make_audio_index` performs no validation at all.  At
`part_duration = 1`, `margin_duration = 3/5` (so `margin_duration ≥
part_duration/2`), `sample_rate = 10`, it returns a normal one-row table
whose only slot is inverted (`start_samples = 6 > end_samples = 4`)
instead of failing with `InvalidLayoutError`. -/
theorem C3_code_behavior :
    ((1:ℚ) / 2 ≤ 3/5) ∧
    (make_audio_index 1 1 (3/5) 10).map
        (fun e => (e.start_samples, e.end_samples)) = [(6, 4)] ∧
    (make_audio_index 1 1 (3/5) 10).length = 1 ∧ (4:ℤ) < 6 := by
  refine ⟨by norm_num, ?_, make_audio_index_length 1 1 (3/5) 10, by norm_num⟩
  simp [make_audio_index, List.range_succ]
  norm_num [pyInt]

/-! ## Parameter sampler (`random_params`) -/

/-- One row of the parameter table produced by `random_params`: columns
`midi_instrument`, `midi_number`, `volume`, `duration`, `tempo`. -/
structure NoteSpec where
  midi_instrument : ℤ
  midi_number : ℤ
  volume : ℚ
  duration : ℚ
  tempo : ℚ
deriving DecidableEq, Repr, Inhabited

/-- Error raised while sampling.  `invalidRange` models the `ValueError`
numpy raises when `random_integers` is called with `low > high`
(the spec's `InvalidRangeError`). -/
inductive SamplerError
  | invalidRange
deriving DecidableEq, Repr

/-- Deterministic model of numpy's global pseudo-random generator
(an external library collaborator): the generator state is a natural
number advanced by a linear congruential step on each draw. -/
def nextState (g : ℕ) : ℕ := (1103515245 * g + 12345) % 2 ^ 31

/-- Model of `np.random.seed(seed)`: the state the global generator is put
into by seeding. -/
def seedState (s : ℕ) : ℕ := s % 2 ^ 31

/-- The generator state `random_params` starts from: `np.random.seed(seed)`
when a seed is given (the ambient global state `g0` is discarded),
the ambient global state otherwise. -/
def initState (seed : Option ℕ) (g0 : ℕ) : ℕ :=
  match seed with
  | some s => seedState s
  | none => g0

/-- The `allowed_instruments` array: `np.hstack` of `np.arange(0, 8)` (piano),
`np.arange(16, 32)` (organ, guitar), `np.arange(40, 48)` (strings) and
`np.arange(56, 80)` (brass, reed, pipe). -/
def allowed_instruments : List ℤ :=
  (List.range' 0 8 ++ List.range' 16 16 ++ List.range' 40 8 ++ List.range' 56 24).map
    fun (k : ℕ) => (k : ℤ)

/-- One draw of `np.random.choice(allowed_instruments)`: a uniform pick
from the allowed list, modelled by reducing the generator state modulo the
list length. -/
def npChoice (g : ℕ) : ℤ × ℕ :=
  (allowed_instruments[g % allowed_instruments.length]!, nextState g)

/-- Model of `np.random.choice(allowed_instruments, size=n)`: `n`
successive picks threading the generator state. -/
def drawInstruments : ℕ → ℕ → List ℤ × ℕ
  | 0, g => ([], g)
  | n + 1, g =>
    let p := npChoice g
    let rest := drawInstruments n p.2
    (p.1 :: rest.1, rest.2)

/-- Scalar `np.clip(x, lo, hi)`. -/
def np_clip (x lo hi : ℤ) : ℤ := min (max x lo) hi

/-- Embedding of the inner function `instrument_range(i)` of
`random_params`: looks up `(min_pitch, max_pitch)` for instrument `i` in
the instrument table and, when `note_range` is given, clips both endpoints
to it with `np.clip`.  The table itself comes from
`instruments.midi_instruments()`, whose module is not part of this
source file; it is passed in as the function `instruments`
(modelled from the spec: `InstrumentRangeTable`, a static mapping from
instrument program number to `(min_pitch, max_pitch)`). -/
def instrument_range (instruments : ℤ → ℤ × ℤ) (note_range : Option (ℤ × ℤ))
    (i : ℤ) : ℤ × ℤ :=
  let r := instruments i
  match note_range with
  | none => r
  | some nr => (np_clip r.1 nr.1 nr.2, np_clip r.2 nr.1 nr.2)

/-- Model of `np.random.random_integers(low, high, size=1)[0]`: a uniform
integer drawn inclusively between `low` and `high`; numpy raises
`ValueError` when `low > high`. -/
def random_integers (g : ℕ) (lo hi : ℤ) : Except SamplerError (ℤ × ℕ) :=
  if lo ≤ hi then .ok (lo + (g : ℤ) % (hi - lo + 1), nextState g)
  else .error .invalidRange

/-- Embedding of the inner function `random_note_for_instrument(instr)` of
`random_params`: draws a pitch uniformly from the instrument's resolved
range. -/
def random_note_for_instrument (instruments : ℤ → ℤ × ℤ)
    (note_range : Option (ℤ × ℤ)) (instr : ℤ) (g : ℕ) :
    Except SamplerError (ℤ × ℕ) :=
  let r := instrument_range instruments note_range instr
  random_integers g r.1 r.2

/-- The `df['midi_instrument'].apply(random_note_for_instrument)` column:
one pitch draw per sampled instrument, in row order, threading the
generator state; the first failing draw aborts the whole call. -/
def draw_notes (instruments : ℤ → ℤ × ℤ) (note_range : Option (ℤ × ℤ)) :
    List ℤ → ℕ → Except SamplerError (List (ℤ × ℤ) × ℕ)
  | [], g => .ok ([], g)
  | i :: is, g =>
    match random_note_for_instrument instruments note_range i g with
    | .error e => .error e
    | .ok (m, g') =>
      match draw_notes instruments note_range is g' with
      | .error e => .error e
      | .ok (rest, g'') => .ok ((i, m) :: rest, g'')

/-- One draw of `np.random.uniform(low, high)`, modelled by a dyadic point
of `[low, high)` selected by the generator state. -/
def np_uniform (g : ℕ) (lo hi : ℚ) : ℚ × ℕ :=
  (lo + ((g % 1024 : ℕ) : ℚ) * (hi - lo) / 1024, nextState g)

/-- Model of `np.random.uniform(low=volume_range[0], high=volume_range[1],
size=n)`: `n` successive volume draws threading the generator state. -/
def draw_volumes : ℕ → ℚ × ℚ → ℕ → List ℚ × ℕ
  | 0, _, g => ([], g)
  | n + 1, vr, g =>
    let u := np_uniform g vr.1 vr.2
    let rest := draw_volumes n vr u.2
    (u.1 :: rest.1, rest.2)

/-- Assembling the `DataFrame` from its columns: row `k` takes the `k`-th
`(midi_instrument, midi_number)` pair and the `k`-th volume, and the
scalar `duration` and `tempo` arguments are broadcast to every row. -/
def combine (duration tempo : ℚ) : List (ℤ × ℤ) → List ℚ → List NoteSpec
  | [], _ => []
  | _ :: _, [] => []
  | (im, mn) :: ps, v :: vs =>
      { midi_instrument := im, midi_number := mn, volume := v,
        duration := duration, tempo := tempo } :: combine duration tempo ps vs

/-- Embedding of `random_params(n, note_range, volume_range, duration,
tempo, seed)`.  `g0` is the ambient state of numpy's global generator when
the function is entered; `np.random.seed(seed)` replaces it when `seed` is
not `None`.  The instrument table (from the `instruments` module, not part
of this file) is the explicit argument `instruments`. -/
def random_params (instruments : ℤ → ℤ × ℤ) (n : ℕ)
    (note_range : Option (ℤ × ℤ)) (volume_range : ℚ × ℚ)
    (duration tempo : ℚ) (seed : Option ℕ) (g0 : ℕ) :
    Except SamplerError (List NoteSpec) :=
  let g1 := initState seed g0
  let instrs := drawInstruments n g1
  match draw_notes instruments note_range instrs.1 instrs.2 with
  | .error e => .error e
  | .ok (pairs, g3) =>
    let vols := draw_volumes n volume_range g3
    .ok (combine duration tempo pairs vols.1)

lemma random_integers_ok_bounds {g : ℕ} {lo hi m : ℤ} {g' : ℕ}
    (h : random_integers g lo hi = .ok (m, g')) : lo ≤ m ∧ m ≤ hi := by
  unfold random_integers at h
  split at h
  · next hle =>
    have hpos : 0 < hi - lo + 1 := by linarith
    simp only [Except.ok.injEq, Prod.mk.injEq] at h
    obtain ⟨hm, -⟩ := h
    have h1 : 0 ≤ (g : ℤ) % (hi - lo + 1) := Int.emod_nonneg _ (ne_of_gt hpos)
    have h2 : (g : ℤ) % (hi - lo + 1) < hi - lo + 1 := Int.emod_lt_of_pos _ hpos
    subst hm
    constructor <;> linarith
  · exact Except.noConfusion h

lemma draw_notes_ok_bounds (instruments : ℤ → ℤ × ℤ) (note_range : Option (ℤ × ℤ))
    (l : List ℤ) : ∀ (g : ℕ) (ps : List (ℤ × ℤ)) (g' : ℕ),
      draw_notes instruments note_range l g = .ok (ps, g') →
      ∀ p ∈ ps, (instrument_range instruments note_range p.1).1 ≤ p.2 ∧
        p.2 ≤ (instrument_range instruments note_range p.1).2 := by
  induction l with
  | nil =>
    intro g ps g' h p hp
    simp only [draw_notes, Except.ok.injEq, Prod.mk.injEq] at h
    obtain ⟨h1, -⟩ := h
    subst h1
    cases hp
  | cons a l ih =>
    intro g ps g' h p hp
    simp only [draw_notes] at h
    cases hrn : random_note_for_instrument instruments note_range a g with
    | error e => rw [hrn] at h; exact Except.noConfusion h
    | ok mg =>
      obtain ⟨m, g1⟩ := mg
      rw [hrn] at h
      dsimp only at h
      cases hdn : draw_notes instruments note_range l g1 with
      | error e => rw [hdn] at h; exact Except.noConfusion h
      | ok rg =>
        obtain ⟨rest, g2⟩ := rg
        rw [hdn] at h
        dsimp only at h
        simp only [Except.ok.injEq, Prod.mk.injEq] at h
        obtain ⟨h1, -⟩ := h
        subst h1
        rcases List.mem_cons.mp hp with rfl | hp'
        · exact random_integers_ok_bounds hrn
        · exact ih g1 rest g2 hdn p hp'

lemma combine_mem (d t : ℚ) :
    ∀ (ps : List (ℤ × ℤ)) (vs : List ℚ) (spec : NoteSpec),
      spec ∈ combine d t ps vs →
      (spec.midi_instrument, spec.midi_number) ∈ ps ∧
        spec.duration = d ∧ spec.tempo = t := by
  intro ps
  induction ps with
  | nil => intro vs spec h; simp [combine] at h
  | cons p ps ih =>
    obtain ⟨im, mn⟩ := p
    intro vs spec h
    cases vs with
    | nil => simp [combine] at h
    | cons v vs =>
      rcases List.mem_cons.mp (by simpa [combine] using h) with rfl | h'
      · exact ⟨List.mem_cons_self _ _, rfl, rfl⟩
      · obtain ⟨h1, h2, h3⟩ := ih vs spec h'
        exact ⟨List.mem_cons_of_mem _ h1, h2, h3⟩

/-- C4: with any given seed, `random_params` produces the same parameter
table no matter what the ambient global generator state was when it is
called: `np.random.seed(seed)` deterministically resets the generator
before any draws, so the output is a function of the seed and the
arguments only. -/
theorem C4_seeded_determinism (instruments : ℤ → ℤ × ℤ) (n : ℕ)
    (note_range : Option (ℤ × ℤ)) (volume_range : ℚ × ℚ)
    (duration tempo : ℚ) (s : ℕ) (g1 g2 : ℕ) :
    random_params instruments n note_range volume_range duration tempo (some s) g1
      = random_params instruments n note_range volume_range duration tempo (some s) g2 :=
  rfl

/-- C5: every row of a successfully sampled parameter table has its
`midi_number` between the (possibly `note_range`-clipped) `min_pitch` and
`max_pitch` of that row's instrument, inclusive. -/
theorem C5_midi_number_in_range (instruments : ℤ → ℤ × ℤ) (n : ℕ)
    (note_range : Option (ℤ × ℤ)) (volume_range : ℚ × ℚ)
    (duration tempo : ℚ) (seed : Option ℕ) (g0 : ℕ) (rows : List NoteSpec)
    (h : random_params instruments n note_range volume_range duration tempo seed g0
      = .ok rows) :
    ∀ spec ∈ rows,
      (instrument_range instruments note_range spec.midi_instrument).1
          ≤ spec.midi_number ∧
      spec.midi_number
          ≤ (instrument_range instruments note_range spec.midi_instrument).2 := by
  intro spec hspec
  unfold random_params at h
  dsimp only at h
  cases hdn : draw_notes instruments note_range
      (drawInstruments n (initState seed g0)).1
      (drawInstruments n (initState seed g0)).2 with
  | error e => rw [hdn] at h; exact Except.noConfusion h
  | ok pg =>
    obtain ⟨pairs, g3⟩ := pg
    rw [hdn] at h
    dsimp only at h
    simp only [Except.ok.injEq] at h
    subst h
    obtain ⟨hmem, -, -⟩ := combine_mem duration tempo pairs
      (draw_volumes n volume_range g3).1 spec hspec
    exact draw_notes_ok_bounds instruments note_range _ _ _ _ hdn
      (spec.midi_instrument, spec.midi_number) hmem

/-- Witness for C5: a concrete successful call, whose single row has
`midi_number = 61` inside the instrument range `[60, 72]`. -/
theorem C5_witness :
    (random_params (fun _ => ((60:ℤ), (72:ℤ))) 1 none (1/2, 1) 1 60 (some 42) 0
        = .ok [{ midi_instrument := 66, midi_number := 61, volume := 247/256,
                 duration := 1, tempo := 60 }]) ∧
    (∀ spec ∈ ([{ midi_instrument := 66, midi_number := 61, volume := 247/256,
                  duration := 1, tempo := 60 }] : List NoteSpec),
      (instrument_range (fun _ => ((60:ℤ), (72:ℤ))) none spec.midi_instrument).1
          ≤ spec.midi_number ∧
      spec.midi_number
          ≤ (instrument_range (fun _ => ((60:ℤ), (72:ℤ))) none spec.midi_instrument).2) := by
  have h : random_params (fun _ => ((60:ℤ), (72:ℤ))) 1 none (1/2, 1) 1 60 (some 42) 0
      = .ok [{ midi_instrument := 66, midi_number := 61, volume := 247/256,
               duration := 1, tempo := 60 }] := by
    simp [random_params, initState, seedState, drawInstruments, npChoice, nextState,
      allowed_instruments, draw_notes, random_note_for_instrument, instrument_range,
      random_integers, draw_volumes, np_uniform, combine, List.range']
    norm_num
  exact ⟨h, C5_midi_number_in_range _ _ _ _ _ _ _ _ _ h⟩

lemma draw_notes_error (instruments : ℤ → ℤ × ℤ) (note_range : Option (ℤ × ℤ)) :
    ∀ (l : List ℤ) (g : ℕ),
      (∃ i ∈ l, (instrument_range instruments note_range i).2
        < (instrument_range instruments note_range i).1) →
      draw_notes instruments note_range l g = .error .invalidRange := by
  intro l
  induction l with
  | nil => intro g h; obtain ⟨i, hi, -⟩ := h; cases hi
  | cons a l ih =>
    intro g h
    by_cases ha : (instrument_range instruments note_range a).2
        < (instrument_range instruments note_range a).1
    · have hd : random_note_for_instrument instruments note_range a g
          = .error .invalidRange := by
        unfold random_note_for_instrument random_integers
        rw [if_neg (not_le.mpr ha)]
      simp [draw_notes, hd]
    · obtain ⟨i, hi, hbad⟩ := h
      rcases List.mem_cons.mp hi with rfl | hi'
      · exact absurd hbad ha
      · cases hrn : random_note_for_instrument instruments note_range a g with
        | error e => cases e; simp [draw_notes, hrn]
        | ok mg =>
          obtain ⟨m, g'⟩ := mg
          have hrec := ih g' ⟨i, hi', hbad⟩
          simp [draw_notes, hrn, hrec]

/-- C6: whenever some sampled instrument's resolved pitch range is empty
after clipping (`min > max`), `random_params` fails with the
invalid-range error instead of silently swapping the endpoints. -/
theorem C6_empty_range_fails (instruments : ℤ → ℤ × ℤ) (n : ℕ)
    (note_range : Option (ℤ × ℤ)) (volume_range : ℚ × ℚ)
    (duration tempo : ℚ) (seed : Option ℕ) (g0 : ℕ)
    (h : ∃ i ∈ (drawInstruments n (initState seed g0)).1,
      (instrument_range instruments note_range i).2
        < (instrument_range instruments note_range i).1) :
    random_params instruments n note_range volume_range duration tempo seed g0
      = .error .invalidRange := by
  unfold random_params
  dsimp only
  rw [draw_notes_error instruments note_range _ _ h]

/-- Witness for C6: an instrument table whose range `(72, 60)` is empty
makes the concrete call fail with the invalid-range error. -/
theorem C6_witness :
    (∃ i ∈ (drawInstruments 1 (initState (some 42) 0)).1,
      (instrument_range (fun _ => ((72:ℤ), (60:ℤ))) none i).2
        < (instrument_range (fun _ => ((72:ℤ), (60:ℤ))) none i).1) ∧
    random_params (fun _ => ((72:ℤ), (60:ℤ))) 1 none (1/2, 1) 1 60 (some 42) 0
      = .error .invalidRange := by
  have h : ∃ i ∈ (drawInstruments 1 (initState (some 42) 0)).1,
      (instrument_range (fun _ => ((72:ℤ), (60:ℤ))) none i).2
        < (instrument_range (fun _ => ((72:ℤ), (60:ℤ))) none i).1 := by
    refine ⟨66, ?_, by norm_num [instrument_range]⟩
    simp [drawInstruments, initState, seedState, npChoice, nextState,
      allowed_instruments, List.range']
  exact ⟨h, C6_empty_range_fails _ _ _ _ _ _ _ _ h⟩

lemma np_clip_mono {x y lo hi : ℤ} (hxy : x ≤ y) :
    np_clip x lo hi ≤ np_clip y lo hi :=
  min_le_min (max_le_max hxy le_rfl) le_rfl

lemma draw_notes_ok_of_ordered (instruments : ℤ → ℤ × ℤ)
    (note_range : Option (ℤ × ℤ))
    (hord : ∀ i : ℤ, (instrument_range instruments note_range i).1
      ≤ (instrument_range instruments note_range i).2) :
    ∀ (l : List ℤ) (g : ℕ), ∃ res,
      draw_notes instruments note_range l g = .ok res := by
  intro l
  induction l with
  | nil => intro g; exact ⟨([], g), rfl⟩
  | cons a l ih =>
    intro g
    have hd : random_note_for_instrument instruments note_range a g
        = .ok ((instrument_range instruments note_range a).1
            + (g : ℤ) % ((instrument_range instruments note_range a).2
              - (instrument_range instruments note_range a).1 + 1), nextState g) := by
      unfold random_note_for_instrument random_integers
      rw [if_pos (hord a)]
    obtain ⟨⟨rest, g2⟩, hrec⟩ := ih (nextState g)
    refine ⟨((a, (instrument_range instruments note_range a).1
      + (g : ℤ) % ((instrument_range instruments note_range a).2
        - (instrument_range instruments note_range a).1 + 1)) :: rest, g2), ?_⟩
    simp [draw_notes, hd, hrec]

/-- C10: when `note_range` is a well-ordered pair and every entry of the
instrument table satisfies `min_pitch ≤ max_pitch`, clipping both
endpoints into the same interval preserves their order, so every resolved
range is non-empty and `random_params` always succeeds: the empty-range
error branch is unreachable. -/
theorem C10_clip_preserves_order (instruments : ℤ → ℤ × ℤ) (n : ℕ)
    (lo hi : ℤ) (volume_range : ℚ × ℚ) (duration tempo : ℚ)
    (seed : Option ℕ) (g0 : ℕ) (hlh : lo ≤ hi)
    (hI : ∀ i, (instruments i).1 ≤ (instruments i).2) :
    (∀ i : ℤ, (instrument_range instruments (some (lo, hi)) i).1
        ≤ (instrument_range instruments (some (lo, hi)) i).2) ∧
    (random_params instruments n (some (lo, hi)) volume_range duration tempo
      seed g0).isOk = true := by
  have hord : ∀ i : ℤ, (instrument_range instruments (some (lo, hi)) i).1
      ≤ (instrument_range instruments (some (lo, hi)) i).2 := by
    intro i
    simp only [instrument_range]
    exact np_clip_mono (hI i)
  refine ⟨hord, ?_⟩
  unfold random_params
  dsimp only
  obtain ⟨⟨pairs, g3⟩, hres⟩ := draw_notes_ok_of_ordered instruments
    (some (lo, hi)) hord (drawInstruments n (initState seed g0)).1
    (drawInstruments n (initState seed g0)).2
  rw [hres]
  rfl

/-- Witness for C10 with the full MIDI range clipped to `[60, 72]`. -/
theorem C10_witness :
    ((60:ℤ) ≤ 72 ∧ ∀ i : ℤ,
      ((fun (_ : ℤ) => ((0:ℤ), (127:ℤ))) i).1
        ≤ ((fun (_ : ℤ) => ((0:ℤ), (127:ℤ))) i).2) ∧
    ((∀ i : ℤ, (instrument_range (fun _ => ((0:ℤ), (127:ℤ))) (some (60, 72)) i).1
        ≤ (instrument_range (fun _ => ((0:ℤ), (127:ℤ))) (some (60, 72)) i).2) ∧
    (random_params (fun _ => ((0:ℤ), (127:ℤ))) 1 (some (60, 72)) (1/2, 1) 1 60
      (some 42) 0).isOk = true) :=
  ⟨⟨by norm_num, fun i => by norm_num⟩,
    C10_clip_preserves_order (fun _ => ((0:ℤ), (127:ℤ))) 1 60 72 (1/2, 1) 1 60
      (some 42) 0 (by norm_num) (fun i => by norm_num)⟩

/-! ## Slicer (`split_audio_to_parts`) and dataset reader -/

/-- Python slice `x[s:e]` on a list, with CPython's index semantics:
negative indices count from the end, and both endpoints are clamped to
the list's bounds, so an out-of-range request silently truncates. -/
def py_slice {α : Type} (x : List α) (s e : ℤ) : List α :=
  let n : ℤ := (x.length : ℤ)
  let s' := if s < 0 then max (n + s) 0 else min s n
  let e' := if e < 0 then max (n + e) 0 else min e n
  (x.drop s'.toNat).take (e'.toNat - s'.toNat)

/-- Embedding of `split_audio_to_parts(x, sample_rate, audio_index)`:
for each index row in order, yields
`x[int(row['start_samples']):int(row['end_samples'])]`.  The
`sample_rate` argument is accepted and unused, as in the source; the lazy
generator is materialized as a list.  The row fields are already integers,
so Python's `int(...)` is the identity on them. -/
def split_audio_to_parts {α : Type} (x : List α) (sample_rate : ℤ)
    (audio_index : List AudioIndexEntry) : List (List α) :=
  audio_index.map fun row => py_slice x row.start_samples row.end_samples

/-- The in-memory view built by `SingleToneDataset.__init__` after the
three artifacts (parameter table, audio index, concatenated waveform)
have been read from disk: it stores them and eagerly materializes
`samples` by re-slicing the waveform with the index.  File paths and the
file I/O itself are outside the embedding; the loaded contents are the
arguments. -/
structure SingleToneDataset (α : Type) where
  params : List NoteSpec
  audio_index : List AudioIndexEntry
  sample_rate : ℤ
  samples : List (List α)

/-- Embedding of the body of `SingleToneDataset.__init__`: no validation
relates the loaded tables; `samples` is `split_audio_to_parts` applied to
the loaded waveform and audio index. -/
def single_tone_dataset {α : Type} (params : List NoteSpec)
    (audio_index : List AudioIndexEntry) (audio : List α) (sample_rate : ℤ) :
    SingleToneDataset α :=
  { params := params, audio_index := audio_index, sample_rate := sample_rate,
    samples := split_audio_to_parts audio sample_rate audio_index }

lemma py_slice_eq_drop_take {α : Type} (x : List α) (s e : ℤ)
    (hs : 0 ≤ s) (hse : s ≤ e) (he : e ≤ (x.length : ℤ)) :
    py_slice x s e = (x.drop s.toNat).take (e.toNat - s.toNat) := by
  unfold py_slice
  dsimp only
  rw [if_neg (not_lt.mpr hs), if_neg (not_lt.mpr (le_trans hs hse)),
    min_eq_left (le_trans hse he), min_eq_left he]

/-- C7: for a waveform and an audio index whose intervals lie within the
waveform's bounds, the slicer yields exactly one segment per index row in
index order, and segment `k` is precisely the subsequence of the waveform
from `start_samples` (inclusive) to `end_samples` (exclusive): it has
length `end_samples - start_samples` and its `j`-th element is the
waveform's `(start_samples + j)`-th element. -/
theorem C7_split_audio_to_parts (α : Type) [Inhabited α] (x : List α) (sr : ℤ)
    (idx : List AudioIndexEntry)
    (hb : ∀ row ∈ idx, 0 ≤ row.start_samples ∧
      row.start_samples ≤ row.end_samples ∧
      row.end_samples ≤ (x.length : ℤ)) :
    (split_audio_to_parts x sr idx).length = idx.length ∧
    ∀ k : ℕ, k < idx.length →
      (split_audio_to_parts x sr idx)[k]!.length
          = (idx[k]!.end_samples - idx[k]!.start_samples).toNat ∧
      ∀ j : ℕ, j < (idx[k]!.end_samples - idx[k]!.start_samples).toNat →
        ((split_audio_to_parts x sr idx)[k]!)[j]!
          = x[idx[k]!.start_samples.toNat + j]! := by
  refine ⟨by simp [split_audio_to_parts], ?_⟩
  intro k hk
  have hk' : k < (split_audio_to_parts x sr idx).length := by
    simpa [split_audio_to_parts] using hk
  have hidx : idx[k]! = idx[k] := getElem!_pos idx k hk
  have hsp : (split_audio_to_parts x sr idx)[k]!
      = py_slice x idx[k].start_samples idx[k].end_samples := by
    rw [getElem!_pos (split_audio_to_parts x sr idx) k hk']
    simp [split_audio_to_parts]
  obtain ⟨h0, hse, hel⟩ := hb idx[k] (List.getElem_mem hk)
  rw [hsp, hidx, py_slice_eq_drop_take x _ _ h0 hse hel]
  have hsn : idx[k].start_samples.toNat ≤ idx[k].end_samples.toNat := by omega
  have hen : idx[k].end_samples.toNat ≤ x.length := by omega
  have hlen : ((x.drop idx[k].start_samples.toNat).take
      (idx[k].end_samples.toNat - idx[k].start_samples.toNat)).length
      = (idx[k].end_samples - idx[k].start_samples).toNat := by
    rw [List.length_take, List.length_drop]
    omega
  refine ⟨hlen, ?_⟩
  intro j hj
  have hjlen : j < ((x.drop idx[k].start_samples.toNat).take
      (idx[k].end_samples.toNat - idx[k].start_samples.toNat)).length := by
    rw [hlen]; exact hj
  have hxj : idx[k].start_samples.toNat + j < x.length := by
    rw [List.length_take, List.length_drop] at hjlen
    omega
  rw [getElem!_pos ((x.drop idx[k].start_samples.toNat).take
      (idx[k].end_samples.toNat - idx[k].start_samples.toNat)) j hjlen,
    getElem!_pos x (idx[k].start_samples.toNat + j) hxj]
  rw [List.getElem_take, List.getElem_drop]

/-- Concrete waveform used in the C7 witness. -/
def sliceWave : List ℤ := [10, 20, 30, 40]

/-- Concrete one-row audio index used in the C7 witness: the interval
`[1, 3)`. -/
def sliceIdx : List AudioIndexEntry :=
  [{ start_samples := 1, start_time := 0, end_samples := 3, end_time := 0 }]

/-- Witness for C7: slicing `[10, 20, 30, 40]` with the single index row
`[1, 3)`. -/
theorem C7_witness :
    (∀ row ∈ sliceIdx,
      0 ≤ row.start_samples ∧ row.start_samples ≤ row.end_samples ∧
      row.end_samples ≤ (sliceWave.length : ℤ)) ∧
    ((split_audio_to_parts sliceWave 44100 sliceIdx).length = sliceIdx.length ∧
    ∀ k : ℕ, k < sliceIdx.length →
      (split_audio_to_parts sliceWave 44100 sliceIdx)[k]!.length
          = (sliceIdx[k]!.end_samples - sliceIdx[k]!.start_samples).toNat ∧
      ∀ j : ℕ, j < (sliceIdx[k]!.end_samples - sliceIdx[k]!.start_samples).toNat →
        ((split_audio_to_parts sliceWave 44100 sliceIdx)[k]!)[j]!
          = sliceWave[sliceIdx[k]!.start_samples.toNat + j]!) := by
  have hb : ∀ row ∈ sliceIdx,
      0 ≤ row.start_samples ∧ row.start_samples ≤ row.end_samples ∧
      row.end_samples ≤ (sliceWave.length : ℤ) := by
    intro row hrow
    rcases List.mem_singleton.mp hrow with rfl
    refine ⟨by norm_num, by norm_num, by norm_num [sliceWave]⟩
  exact ⟨hb, C7_split_audio_to_parts ℤ sliceWave 44100 sliceIdx hb⟩

/-- C8: the slicer does not check bounds.  Slicing the length-5 waveform
`[0, 1, 2, 3, 4]` with the index row `[2, 9)` silently truncates to the 3
available samples `[2, 3, 4]` instead of failing with `OutOfRangeError`
(the requested length would be `9 - 2 = 7`). -/
theorem C8_silent_truncation :
    split_audio_to_parts ([0, 1, 2, 3, 4] : List ℤ) 44100
        [{ start_samples := 2, start_time := 0, end_samples := 9, end_time := 0 }]
      = [[2, 3, 4]] ∧
    ¬ ((([2, 3, 4] : List ℤ).length : ℤ) = 9 - 2) := by
  constructor
  · simp [split_audio_to_parts, py_slice]
  · decide

/-- C9: `SingleToneDataset.__init__` never compares the row counts of the
loaded parameter table and audio index.  With a 4-row parameter table and
a 5-row audio index it constructs the dataset without any error — and
even materializes 5 samples — instead of failing with `SchemaError`. -/
theorem C9_no_row_count_check :
    (single_tone_dataset
        (List.replicate 4 { midi_instrument := 0, midi_number := 60, volume := 1,
                            duration := 1, tempo := 60 })
        (List.replicate 5 { start_samples := 0, start_time := 0, end_samples := 1,
                            end_time := 0 })
        ([0, 1, 2] : List ℤ) 44100).params.length = 4 ∧
    (single_tone_dataset
        (List.replicate 4 { midi_instrument := 0, midi_number := 60, volume := 1,
                            duration := 1, tempo := 60 })
        (List.replicate 5 { start_samples := 0, start_time := 0, end_samples := 1,
                            end_time := 0 })
        ([0, 1, 2] : List ℤ) 44100).audio_index.length = 5 ∧
    (single_tone_dataset
        (List.replicate 4 { midi_instrument := 0, midi_number := 60, volume := 1,
                            duration := 1, tempo := 60 })
        (List.replicate 5 { start_samples := 0, start_time := 0, end_samples := 1,
                            end_time := 0 })
        ([0, 1, 2] : List ℤ) 44100).samples.length = 5 ∧
    (4 : ℕ) ≠ 5 := by
  refine ⟨?_, ?_, ?_, by decide⟩ <;>
    simp [single_tone_dataset, split_audio_to_parts]

end AudioSamples
